import Mathlib

/-!
Shallow embedding of `src/magespace_importer/__main__.py`
(class `MagespaceModelImporter` and its helpers).

Pure logic (argument defaulting, `str.splitlines`, the CSS substring
check of `is_logged_in`) is embedded as Lean functions; the effectful
methods (`__init__`, `run`, `process_urls`, `process_model_url`,
`wait_for_manual_processing`) are embedded as trace-producing functions
over an explicit environment recording the external world: whether the
models file exists, its content, the page's elements, which per-URL
calls raise, and the successive observations of the open-tab count.
-/

namespace MagespaceImporter

/-- A DOM element as seen by `driver.find_element`: its tag name and the
value of its `src` attribute. -/
structure Element where
  tag : String
  src : String
  deriving DecidableEq, Repr

/-- The substring of the CSS selector
`iframe[src*=\x27https://www.mage.space/__/auth/iframe\x27]` used by
`is_logged_in`. -/
def authIframeSrcSubstr : String := "https://www.mage.space/__/auth/iframe"

/-- Whether `pat` is a prefix of `hay`, over character lists. -/
def charsStartWith : List Char → List Char → Bool
  | _, [] => true
  | [], _ :: _ => false
  | c :: cs, d :: ds => c == d && charsStartWith cs ds

/-- Whether `hay` contains `pat` as a contiguous run, over character
lists. -/
def charsHaveSubstr (pat : List Char) : List Char → Bool
  | [] => pat.isEmpty
  | c :: rest => charsStartWith (c :: rest) pat || charsHaveSubstr pat rest

/-- Substring containment test (the CSS `[src*=...]` attribute match). -/
def strContainsSubstr (s pat : String) : Bool := charsHaveSubstr pat.data s.data

/-- Whether an element matches the selector
`iframe[src*=\x27https://www.mage.space/__/auth/iframe\x27]`. -/
def matchesAuthIframe (e : Element) : Bool :=
  e.tag == "iframe" && strContainsSubstr e.src authIframeSrcSubstr

/-- `driver.find_element(By.CSS_SELECTOR, sel)`: first element of the page
matching the selector predicate, or `none` (`NoSuchElementException`). -/
def find_element (page : List Element) (p : Element → Bool) : Option Element :=
  page.find? p

/-- Default import-page URL from `__init__`. -/
def defaultUrlImport : String := "https://www.mage.space/models/import"

/-- Whether a path is absolute (leading slash). -/
def pathIsAbsolute (p : String) : Bool := p.data.head? == some '/'

/-- Model of `Path(p).resolve()` relative to the working directory:
absolute paths stay, relative ones are anchored at `cwd`. -/
def pathResolve (cwd : String) (p : String) : String :=
  if pathIsAbsolute p then p else cwd ++ "/" ++ p

/-- `self.models_path = Path(models_path).resolve() if models_path else
Path(Path.cwd() / "magespace.txt").resolve()` — note the Python
truthiness test: `none` and the empty string both fall to the default. -/
def resolveModelsPath (cwd : String) (models_path : Option String) : String :=
  match models_path with
  | some s => if s.data.isEmpty then pathResolve cwd "magespace.txt" else pathResolve cwd s
  | none => pathResolve cwd "magespace.txt"

/-- `self.url_import = url_import or "https://www.mage.space/models/import"`
— Python `or` takes the default on `None` and on the empty string. -/
def resolveUrlImport (url_import : Option String) : String :=
  match url_import with
  | some s => if s.data.isEmpty then defaultUrlImport else s
  | none => defaultUrlImport

/-- Whether `is_logged_in` reports success on the given page: the
`find_element` call succeeds. -/
def is_logged_in (page : List Element) : Bool :=
  match find_element page matchesAuthIframe with
  | some _ => true
  | none => false

/-- Characters Python `str.splitlines` treats as line boundaries:
LF, VT, FF, CR, FS, GS, RS, NEL, LINE SEPARATOR, PARAGRAPH SEPARATOR. -/
def isPyLineBreak (c : Char) : Bool :=
  c.toNat = 10 || c.toNat = 11 || c.toNat = 12 || c.toNat = 13 ||
  c.toNat = 28 || c.toNat = 29 || c.toNat = 30 || c.toNat = 133 ||
  c.toNat = 0x2028 || c.toNat = 0x2029

/-- Core of Python `str.splitlines`: `acc` is the reversed current line;
`"\r\n"` counts as a single boundary; a final unterminated nonempty line
is kept, and the final terminator opens no phantom line. -/
def splitlinesAux (acc : List Char) : List Char → List (List Char)
  | [] => if acc.isEmpty then [] else [acc.reverse]
  | '\r' :: '\n' :: rest => acc.reverse :: splitlinesAux [] rest
  | c :: rest =>
    if isPyLineBreak c then acc.reverse :: splitlinesAux [] rest
    else splitlinesAux (c :: acc) rest

/-- Python `str.splitlines` on a string. -/
def pySplitlines (s : String) : List String :=
  (splitlinesAux [] s.data).map List.asString

/-- `read_model_urls`: `self.models_path.read_text().splitlines()`,
as a function of the file's content. -/
def read_model_urls (content : String) : List String :=
  pySplitlines content

/-- One elementary browser interaction of `process_model_url` /
`open_new_tab` / `wait_for_element`. -/
inductive BrowserOp where
  | executeScript (js : String)
  | switchToLastTab
  | navigate (url : String)
  | sleepSeconds (n : Nat)
  | waitVisible (selector : String) (timeoutSeconds : Nat)
  | clearField
  | typeText (text : String)
  deriving DecidableEq, Repr

/-- `open_new_tab(url)`: `execute_script("window.open(\x27\x27);")`,
`switch_to.window(window_handles[-1])`, `get(url)`. -/
def open_new_tab (url : String) : List BrowserOp :=
  [BrowserOp.executeScript "window.open(\x27\x27);",
   BrowserOp.switchToLastTab,
   BrowserOp.navigate url]

/-- `wait_for_element(selector, timeout=10)`: a bounded visibility wait,
default timeout 10 seconds. -/
def wait_for_element (selector : String) (timeoutSeconds : Nat := 10) : BrowserOp :=
  BrowserOp.waitVisible selector timeoutSeconds

/-- `process_model_url(model_url)`: open a tab on the import page,
sleep 1 s, wait for the text input, clear it, type the model URL,
sleep 1 s. -/
def process_model_url (urlImport modelUrl : String) : List BrowserOp :=
  open_new_tab urlImport ++
  [BrowserOp.sleepSeconds 1,
   wait_for_element "input[type=\x27text\x27]",
   BrowserOp.clearField,
   BrowserOp.typeText modelUrl,
   BrowserOp.sleepSeconds 1]

/-- Coarse-grained events of a whole run of the importer. -/
inductive Event where
  | logError (msg : String)
  | launchBrowser
  | navigate (url : String)
  | promptOperator
  | checkAuthMarker (found : Bool)
  | readUrls
  | processUrl (idx : Nat) (url : String) (ok : Bool)
  | pollTabs (count : Nat)
  | quitBrowser
  deriving DecidableEq, Repr

/-- The external world of one run: whether the resolved models file
exists, its content, the elements of the import page after the operator
prompt, which per-URL calls raise (by call index), the tab count read
before the wait loop, and the successive tab counts the wait loop
observes (one per second). -/
structure Env where
  fileExists : Bool
  fileContent : String
  page : List Element
  raises : Nat → Bool
  initialTabs : Nat
  tabCounts : List Nat

/-- Loop body of `process_urls`: each URL is processed in order with its
call index; a raising call is caught and its URL appended to the failed
list. -/
def process_urls_go (raises : Nat → Bool) (i : Nat) : List String → List Event × List String
  | [] => ([], [])
  | u :: rest =>
    let ok := !(raises i)
    let r := process_urls_go raises (i + 1) rest
    (Event.processUrl i u ok :: r.1, if ok then r.2 else u :: r.2)

/-- `process_urls(model_urls)`: the per-URL call trace and the returned
`error_urls` list. -/
def process_urls (raises : Nat → Bool) (urls : List String) : List Event × List String :=
  process_urls_go raises 0 urls

/-- URLs of the per-URL calls occurring in a trace, in order. -/
def callsOf (evs : List Event) : List String :=
  evs.filterMap fun e =>
    match e with
    | Event.processUrl _ u _ => some u
    | _ => none

/-- The Failed-URL list: entries whose call raised, in input order. -/
def failedOf (raises : Nat → Bool) (urls : List String) : List String :=
  ((urls.enum).filter (fun p => raises p.1)).map Prod.snd

/-- Progress-bar state of `wait_for_manual_processing`:
`previous_tab_count` and the closed-tab count reported so far. -/
structure WaitState where
  previous : Nat
  closed : Nat
  deriving DecidableEq, Repr

/-- One loop-body update: when the observed count dropped below the
recorded one, report the difference and record the new count; otherwise
leave both unchanged. -/
def waitPollStep (s : WaitState) (current : Nat) : WaitState :=
  if 0 < s.previous - current then
    { previous := current, closed := s.closed + (s.previous - current) }
  else s

/-- The polling loop of `wait_for_manual_processing` over the successive
tab-count observations: it stops at the first observed zero (returning
the final state and the polls made), and `none` means the observation
list ran out with no zero — the loop is still running. -/
def wait_loop (s : WaitState) : List Nat → Option (WaitState × List Event)
  | [] => none
  | c :: rest =>
    if c = 0 then some (s, [Event.pollTabs 0])
    else
      match wait_loop (waitPollStep s c) rest with
      | some r => some (r.1, Event.pollTabs c :: r.2)
      | none => none

/-- `wait_for_manual_processing`: read the initial tab count, then poll
once per second until no tab remains. -/
def wait_for_manual_processing (initialTabs : Nat) (tabCounts : List Nat) :
    Option (WaitState × List Event) :=
  wait_loop { previous := initialTabs, closed := 0 } tabCounts

/-- Outcome of `run`. -/
inductive RunResult where
  | authFailed
  | completed (failed : List String)
  deriving DecidableEq, Repr

/-- `run()`: navigate to the import page, prompt and check login; on
success read the URLs, process them, log failures, wait for manual
processing; in every case quit the browser last. `none` models the
unbounded wait never observing zero. -/
def run (urlImport : String) (env : Env) : Option (List Event × RunResult) :=
  let authEvents := [Event.navigate urlImport, Event.promptOperator,
                     Event.checkAuthMarker (is_logged_in env.page)]
  if is_logged_in env.page then
    let urls := read_model_urls env.fileContent
    let p := process_urls env.raises urls
    let errorLog := if p.2.isEmpty then [] else [Event.logError "Failed URLs"]
    match wait_for_manual_processing env.initialTabs env.tabCounts with
    | some w =>
      some (authEvents ++ [Event.readUrls] ++ p.1 ++ errorLog ++ w.2 ++ [Event.quitBrowser],
            RunResult.completed p.2)
    | none => none
  else
    some (authEvents ++ [Event.quitBrowser], RunResult.authFailed)

/-- Outcome of `__init__`. -/
inductive InitOutcome where
  | configError
  | finished (result : RunResult)
  deriving DecidableEq, Repr

/-- `__init__`: resolve the models path; when the file is missing, log
the configuration error and return before any browser step; otherwise
launch the browser, resolve the import URL and run. -/
def importerInit (cwd : String) (models_path driver_path url_import : Option String)
    (env : Env) : Option (List Event × InitOutcome) :=
  let mp := resolveModelsPath cwd models_path
  if env.fileExists then
    match run (resolveUrlImport url_import) env with
    | some r => some (Event.launchBrowser :: r.1, InitOutcome.finished r.2)
    | none => none
  else
    some ([Event.logError ("You must have the file " ++ mp ++
            " that contains a newline-delimited list of model URLs.")],
          InitOutcome.configError)

/-- Whether an event is an interaction with the browser. -/
def Event.isBrowserInteraction : Event → Bool
  | Event.launchBrowser => true
  | Event.navigate _ => true
  | Event.processUrl _ _ _ => true
  | Event.pollTabs _ => true
  | Event.quitBrowser => true
  | _ => false

/-- The file content made of the given lines, each `"\n"`-terminated. -/
def linesWithTerminators : List String → String
  | [] => ""
  | l :: ls => l ++ "\n" ++ linesWithTerminators ls

/-! Helper lemmas about `splitlinesAux`. -/

theorem splitlinesAux_nil (acc : List Char) :
    splitlinesAux acc [] = if acc.isEmpty then [] else [acc.reverse] := rfl

theorem splitlinesAux_crlf (acc rest : List Char) :
    splitlinesAux acc ('\r' :: '\n' :: rest) = acc.reverse :: splitlinesAux [] rest := rfl

theorem splitlinesAux_nl (acc rest : List Char) :
    splitlinesAux acc ('\n' :: rest) = acc.reverse :: splitlinesAux [] rest := rfl

theorem splitlinesAux_break_notcr (c : Char) (hc : isPyLineBreak c = true) (hcr : c ≠ '\r')
    (acc rest : List Char) :
    splitlinesAux acc (c :: rest) = acc.reverse :: splitlinesAux [] rest := by
  rw [splitlinesAux.eq_def]
  split
  · simp_all
  · rename_i h
    exact absurd (by injection h) hcr
  · rename_i h₁ h₂
    rename_i c₂ rest₂
    simp_all

theorem splitlinesAux_cr (acc rest : List Char) (h : rest.head? ≠ some '\n') :
    splitlinesAux acc ('\r' :: rest) = acc.reverse :: splitlinesAux [] rest := by
  cases rest with
  | nil => rfl
  | cons r rest2 =>
    have hr : r ≠ '\n' := by
      intro he
      exact h (by simp [he])
    rw [splitlinesAux.eq_def]
    split
    · simp_all
    · rename_i he
      injection he with h1 h2
      injection h2 with h3 _
      exact absurd h3 hr
    · rename_i hno heq
      injection heq with h1 h2
      subst h2
      rw [← h1]
      have hbr : isPyLineBreak '\x0d' = true := by decide
      simp [hbr]

theorem splitlinesAux_notbreak (c : Char) (hc : isPyLineBreak c = false)
    (acc rest : List Char) :
    splitlinesAux acc (c :: rest) = splitlinesAux (c :: acc) rest := by
  rw [splitlinesAux.eq_def]
  split
  · simp_all
  · rename_i he
    injection he with h1 _
    rw [h1] at hc
    simp [isPyLineBreak] at hc
  · rename_i h₁ h₂
    simp_all

theorem splitlinesAux_chunk (rest : List Char) :
    ∀ cs acc, (∀ c ∈ cs, isPyLineBreak c = false) →
      splitlinesAux acc (cs ++ '\n' :: rest) = (acc.reverse ++ cs) :: splitlinesAux [] rest := by
  intro cs
  induction cs with
  | nil =>
    intro acc _
    simpa using splitlinesAux_nl acc rest
  | cons c cs ih =>
    intro acc h
    have hc : isPyLineBreak c = false := h c (List.mem_cons_self c cs)
    rw [List.cons_append, splitlinesAux_notbreak c hc,
      ih (c :: acc) (fun d hd => h d (List.mem_cons_of_mem c hd))]
    simp

theorem read_linesWithTerminators :
    ∀ lines : List String, (∀ l ∈ lines, ∀ c ∈ l.data, isPyLineBreak c = false) →
      read_model_urls (linesWithTerminators lines) = lines := by
  intro lines
  induction lines with
  | nil => intro _; rfl
  | cons l ls ih =>
    intro h
    have hdata : (linesWithTerminators (l :: ls)).data =
        l.data ++ '\n' :: (linesWithTerminators ls).data := by
      show (l ++ "\n" ++ linesWithTerminators ls).data = _
      simp [String.data_append]
    show pySplitlines (linesWithTerminators (l :: ls)) = l :: ls
    rw [pySplitlines, hdata,
      splitlinesAux_chunk _ l.data [] (fun c hc => h l (List.mem_cons_self l ls) c hc)]
    have hl : l.data.asString = l := String.asString_toList l
    simp only [List.map_cons, List.reverse_nil, List.nil_append, hl]
    exact congrArg (l :: ·) (ih fun d hd => h d (List.mem_cons_of_mem l hd))

theorem splitlinesAux_snoc_nl_of_last_notbreak :
    ∀ n, ∀ cs : List Char, cs.length ≤ n → ∀ acc c0, cs.getLast? = some c0 →
      isPyLineBreak c0 = false →
      splitlinesAux acc (cs ++ ['\n']) = splitlinesAux acc cs := by
  intro n
  induction n with
  | zero =>
    intro cs hlen acc c0 hlast _
    have : cs = [] := List.length_eq_zero.mp (Nat.le_zero.mp hlen)
    subst this
    simp at hlast
  | succ n ih =>
    intro cs hlen acc c0 hlast hc0
    cases cs with
    | nil => simp at hlast
    | cons c rest =>
      cases rest with
      | nil =>
        have hc : c = c0 := by simpa using hlast
        subst hc
        rw [show [c] ++ ['\n'] = c :: ['\n'] from rfl,
          splitlinesAux_notbreak c hc0, splitlinesAux_nl,
          splitlinesAux_notbreak c hc0, splitlinesAux_nil, splitlinesAux_nil]
        simp
      | cons r rest2 =>
        have hlast' : (r :: rest2).getLast? = some c0 := by
          simpa [List.getLast?_cons_cons] using hlast
        have hlen' : (r :: rest2).length ≤ n := by
          simpa using Nat.le_of_succ_le_succ hlen
        by_cases hcr : c = '\x0d'
        · subst hcr
          by_cases hrn : r = '\n'
          · subst hrn
            rw [show ('\x0d' :: '\n' :: rest2) ++ ['\n'] = '\x0d' :: '\n' :: (rest2 ++ ['\n'])
                from rfl, splitlinesAux_crlf, splitlinesAux_crlf]
            cases rest2 with
            | nil =>
              exfalso
              have h0 : '\n' = c0 := by simpa using hlast'
              rw [← h0] at hc0
              simp [isPyLineBreak] at hc0
            | cons a b =>
              have hl2 : (a :: b).getLast? = some c0 := by
                simpa [List.getLast?_cons_cons] using hlast'
              have hlen2 : (a :: b).length ≤ n := by
                have := hlen'
                simp at this ⊢
                omega
              rw [ih (a :: b) hlen2 [] c0 hl2 hc0]
          · have hh : ((r :: rest2) ++ ['\n']).head? ≠ some '\n' := by
              simp [hrn]
            have hh2 : (r :: rest2).head? ≠ some '\n' := by
              simp [hrn]
            rw [show ('\x0d' :: r :: rest2) ++ ['\n'] = '\x0d' :: ((r :: rest2) ++ ['\n'])
                from rfl, splitlinesAux_cr _ _ hh, splitlinesAux_cr _ _ hh2,
              ih (r :: rest2) hlen' [] c0 hlast' hc0]
        · cases hb : isPyLineBreak c with
          | true =>
            rw [List.cons_append, splitlinesAux_break_notcr c hb hcr,
              splitlinesAux_break_notcr c hb hcr,
              ih (r :: rest2) hlen' [] c0 hlast' hc0]
          | false =>
            rw [List.cons_append, splitlinesAux_notbreak c hb,
              splitlinesAux_notbreak c hb,
              ih (r :: rest2) hlen' (c :: acc) c0 hlast' hc0]

theorem splitlinesAux_snoc_nl_of_last_nl :
    ∀ n, ∀ cs : List Char, cs.length ≤ n → ∀ acc, cs.getLast? = some '\n' →
      splitlinesAux acc (cs ++ ['\n']) = splitlinesAux acc cs ++ [[]] := by
  intro n
  induction n with
  | zero =>
    intro cs hlen acc hlast
    have : cs = [] := List.length_eq_zero.mp (Nat.le_zero.mp hlen)
    subst this
    simp at hlast
  | succ n ih =>
    intro cs hlen acc hlast
    cases cs with
    | nil => simp at hlast
    | cons c rest =>
      cases rest with
      | nil =>
        have hc : c = '\n' := by simpa using hlast
        subst hc
        rw [show ['\n'] ++ ['\n'] = '\n' :: ['\n'] from rfl,
          splitlinesAux_nl, splitlinesAux_nl, splitlinesAux_nl]
        simp [splitlinesAux_nil]
      | cons r rest2 =>
        have hlast' : (r :: rest2).getLast? = some '\n' := by
          simpa [List.getLast?_cons_cons] using hlast
        have hlen' : (r :: rest2).length ≤ n := by
          simpa using Nat.le_of_succ_le_succ hlen
        by_cases hcr : c = '\x0d'
        · subst hcr
          by_cases hrn : r = '\n'
          · subst hrn
            rw [show ('\x0d' :: '\n' :: rest2) ++ ['\n'] = '\x0d' :: '\n' :: (rest2 ++ ['\n'])
                from rfl, splitlinesAux_crlf, splitlinesAux_crlf]
            cases rest2 with
            | nil =>
              rw [show ([] : List Char) ++ ['\n'] = ['\n'] from rfl, splitlinesAux_nl]
              simp [splitlinesAux_nil]
            | cons a b =>
              have hl2 : (a :: b).getLast? = some '\n' := by
                simpa [List.getLast?_cons_cons] using hlast'
              have hlen2 : (a :: b).length ≤ n := by
                have := hlen'
                simp at this ⊢
                omega
              rw [ih (a :: b) hlen2 [] hl2]
              simp
          · have hh : ((r :: rest2) ++ ['\n']).head? ≠ some '\n' := by
              simp [hrn]
            have hh2 : (r :: rest2).head? ≠ some '\n' := by
              simp [hrn]
            rw [show ('\x0d' :: r :: rest2) ++ ['\n'] = '\x0d' :: ((r :: rest2) ++ ['\n'])
                from rfl, splitlinesAux_cr _ _ hh, splitlinesAux_cr _ _ hh2,
              ih (r :: rest2) hlen' [] hlast']
            simp
        · cases hb : isPyLineBreak c with
          | true =>
            rw [List.cons_append, splitlinesAux_break_notcr c hb hcr,
              splitlinesAux_break_notcr c hb hcr,
              ih (r :: rest2) hlen' [] hlast']
            simp
          | false =>
            rw [List.cons_append, splitlinesAux_notbreak c hb,
              splitlinesAux_notbreak c hb,
              ih (r :: rest2) hlen' (c :: acc) hlast']

theorem process_urls_go_spec (raises : Nat → Bool) :
    ∀ urls : List String, ∀ i,
      callsOf (process_urls_go raises i urls).1 = urls ∧
      (process_urls_go raises i urls).2 =
        ((List.enumFrom i urls).filter (fun p => raises p.1)).map Prod.snd := by
  intro urls
  induction urls with
  | nil =>
    intro i
    simp [process_urls_go, callsOf, List.enumFrom]
  | cons u rest ih =>
    intro i
    obtain ⟨ih1, ih2⟩ := ih (i + 1)
    constructor
    · show callsOf (Event.processUrl i u (!(raises i)) :: (process_urls_go raises (i + 1) rest).1) = u :: rest
      rw [callsOf, List.filterMap_cons]
      simpa [callsOf] using ih1
    · show (if !(raises i) then (process_urls_go raises (i + 1) rest).2
          else u :: (process_urls_go raises (i + 1) rest).2) = _
      rw [List.enumFrom_cons, List.filter_cons]
      cases h : raises i with
      | true => simp [h, ih2]
      | false => simp [h, ih2]

theorem wait_loop_mem_zero :
    ∀ tabCounts : List Nat, ∀ s : WaitState, 0 ∈ tabCounts →
      ∃ s', wait_loop s tabCounts =
        some (s', ((tabCounts.takeWhile (fun c => c != 0)) ++ [0]).map Event.pollTabs) := by
  intro tabCounts
  induction tabCounts with
  | nil =>
    intro s h
    simp at h
  | cons c rest ih =>
    intro s h
    by_cases hc : c = 0
    · subst hc
      exact ⟨s, by simp [wait_loop, List.takeWhile_cons]⟩
    · have h0 : 0 ∈ rest := by
        cases List.mem_cons.mp h with
        | inl he => exact absurd he.symm hc
        | inr hr => exact hr
      obtain ⟨s', hs'⟩ := ih (waitPollStep s c) h0
      refine ⟨s', ?_⟩
      rw [wait_loop]
      simp only [hc, if_false, hs', List.takeWhile_cons]
      simp [hc]

theorem wait_loop_no_zero :
    ∀ tabCounts : List Nat, ∀ s : WaitState, (∀ c ∈ tabCounts, c ≠ 0) →
      wait_loop s tabCounts = none := by
  intro tabCounts
  induction tabCounts with
  | nil => intro s _; rfl
  | cons c rest ih =>
    intro s h
    have hc : c ≠ 0 := h c (List.mem_cons_self c rest)
    rw [wait_loop]
    simp only [hc, if_false]
    rw [ih (waitPollStep s c) (fun d hd => h d (List.mem_cons_of_mem c hd))]

theorem is_logged_in_eq_isSome (page : List Element) :
    is_logged_in page = (page.find? matchesAuthIframe).isSome := by
  rw [is_logged_in, find_element]
  cases page.find? matchesAuthIframe <;> rfl

/-! Claim theorems. -/

/-- C1: if the resolved input file does not exist, `__init__` reports the
configuration error to the user and the run terminates as a configuration
error; the browser launch is never invoked and no browser interaction at
all occurs. -/
theorem init_missing_file_config_error
    (cwd : String) (models_path driver_path url_import : Option String) (env : Env)
    (h : env.fileExists = false) :
    (∃ msg, importerInit cwd models_path driver_path url_import env =
        some ([Event.logError msg], InitOutcome.configError)) ∧
    ∀ evs out, importerInit cwd models_path driver_path url_import env = some (evs, out) →
      out = InitOutcome.configError ∧ Event.launchBrowser ∉ evs ∧
      ∀ e ∈ evs, e.isBrowserInteraction = false := by
  have hinit : importerInit cwd models_path driver_path url_import env =
      some ([Event.logError ("You must have the file " ++
          resolveModelsPath cwd models_path ++
          " that contains a newline-delimited list of model URLs.")],
        InitOutcome.configError) := by
    rw [importerInit]
    simp [h]
  refine ⟨⟨_, hinit⟩, ?_⟩
  intro evs out he
  rw [hinit] at he
  have hpair := Option.some.inj he
  injection hpair with h1 h2
  subst h1
  subst h2
  refine ⟨rfl, by simp, ?_⟩
  intro e he'
  have : e = Event.logError ("You must have the file " ++
      resolveModelsPath cwd models_path ++
      " that contains a newline-delimited list of model URLs.") := by
    simpa using he'
  subst this
  rfl

/-- Witness for C1 at a concrete environment whose models file is
absent. -/
theorem init_missing_file_config_error_witness :
    ∃ msg, importerInit "/w" none none none
        { fileExists := false, fileContent := "", page := [],
          raises := fun _ => false, initialTabs := 0, tabCounts := [] } =
      some ([Event.logError msg], InitOutcome.configError) :=
  (init_missing_file_config_error "/w" none none none
    { fileExists := false, fileContent := "", page := [],
      raises := fun _ => false, initialTabs := 0, tabCounts := [] } rfl).1

/-- C2: for non-empty input URL lists, `process_urls` invokes the
per-URL operation exactly once per input entry, in input order, and
returns the Failed-URL list. -/
theorem process_urls_in_order
    (raises : Nat → Bool) (urls : List String) (hne : urls ≠ []) :
    callsOf (process_urls raises urls).1 = urls ∧
    (process_urls raises urls).2 = failedOf raises urls := by
  obtain ⟨h1, h2⟩ := process_urls_go_spec raises urls 0
  exact ⟨h1, by rw [process_urls, h2]; rfl⟩

/-- Witness for C2 on a concrete two-URL list. -/
theorem process_urls_in_order_witness :
    callsOf (process_urls (fun _ => false) ["u1", "u2"]).1 = ["u1", "u2"] ∧
    (process_urls (fun _ => false) ["u1", "u2"]).2 = failedOf (fun _ => false) ["u1", "u2"] :=
  process_urls_in_order (fun _ => false) ["u1", "u2"] (by decide)

/-- C3: a raising per-URL call is caught, its URL appears exactly once in
the returned failed list (the failed list is exactly the raising entries,
in order), every entry is still processed, and for two URLs where the
first call throws and the second succeeds the failed list is the first
URL alone. -/
theorem process_urls_exception_isolated (raises : Nat → Bool) (urls : List String) :
    callsOf (process_urls raises urls).1 = urls ∧
    (process_urls raises urls).2 = failedOf raises urls ∧
    ∀ u1 u2 : String, ∀ r2 : Nat → Bool, r2 0 = true → r2 1 = false →
      (process_urls r2 [u1, u2]).2 = [u1] := by
  obtain ⟨h1, h2⟩ := process_urls_go_spec raises urls 0
  refine ⟨h1, by rw [process_urls, h2]; rfl, ?_⟩
  intro u1 u2 r2 h0 hh1
  show (process_urls_go r2 0 [u1, u2]).2 = [u1]
  simp [process_urls_go, h0, hh1]

/-- Witness for C3: first call raises, second succeeds. -/
theorem process_urls_exception_isolated_witness :
    (process_urls (fun i => i == 0) ["a", "b"]).2 = ["a"] :=
  (process_urls_exception_isolated (fun _ => false) []).2.2 "a" "b"
    (fun i => i == 0) rfl rfl

/-- C4: when the authentication check returns false, `run` invokes no
per-URL operation, never reads the URLs, skips the manual-completion
wait, and still quits the browser as its last action. -/
theorem run_auth_failure_short_circuits (urlImport : String) (env : Env)
    (h : is_logged_in env.page = false) :
    ∃ evs, run urlImport env = some (evs, RunResult.authFailed) ∧
      (∀ e ∈ evs, ∀ i u ok, e ≠ Event.processUrl i u ok) ∧
      Event.readUrls ∉ evs ∧ (∀ c, Event.pollTabs c ∉ evs) ∧
      evs.getLast? = some Event.quitBrowser := by
  refine ⟨[Event.navigate urlImport, Event.promptOperator, Event.checkAuthMarker false,
    Event.quitBrowser], ?_, ?_, ?_, ?_, ?_⟩
  · rw [run]
    simp [h]
  · intro e he i u ok
    simp only [List.mem_cons, List.not_mem_nil, or_false] at he
    rcases he with rfl | rfl | rfl | rfl <;> simp
  · simp
  · intro c
    simp
  · rfl

/-- Witness for C4 at a page carrying no authentication marker. -/
theorem run_auth_failure_short_circuits_witness :
    ∃ evs,
      run "u"
          { fileExists := true, fileContent := "", page := [],
            raises := fun _ => false, initialTabs := 0, tabCounts := [] } =
        some (evs, RunResult.authFailed) ∧
      (∀ e ∈ evs, ∀ i u ok, e ≠ Event.processUrl i u ok) ∧
      Event.readUrls ∉ evs ∧ (∀ c, Event.pollTabs c ∉ evs) ∧
      evs.getLast? = some Event.quitBrowser :=
  run_auth_failure_short_circuits "u"
    { fileExists := true, fileContent := "", page := [],
      raises := fun _ => false, initialTabs := 0, tabCounts := [] } rfl

/-- C5: `read_model_urls` loads the file's lines unchanged — no
trimming, validation, deduplication, or blank-line filtering: reading
any newline-terminated line list gives back exactly that list, and the
content with lines urlA, urlB and a blank loads as those three entries. -/
theorem read_model_urls_no_filtering :
    (∀ lines : List String, (∀ l ∈ lines, ∀ c ∈ l.data, isPyLineBreak c = false) →
      read_model_urls (linesWithTerminators lines) = lines) ∧
    read_model_urls "urlA\nurlB\n\n" = ["urlA", "urlB", ""] :=
  ⟨read_linesWithTerminators, by decide⟩

/-- Witness for C5 at the three-line input with a preserved blank. -/
theorem read_model_urls_no_filtering_witness :
    read_model_urls (linesWithTerminators ["urlA", "urlB", ""]) = ["urlA", "urlB", ""] :=
  read_model_urls_no_filtering.1 ["urlA", "urlB", ""] (by decide)

/-- C6: the reported closed-tab count strictly increases in a step
exactly when the observed live tab count is below the recorded one; the
wait terminates exactly on the first observed zero — the polls made are
the nonzero prefix plus that zero, and with no zero observed it never
terminates. -/
theorem wait_reports_and_terminates (initialTabs : Nat) (tabCounts : List Nat) :
    (∀ s current, ((waitPollStep s current).closed > s.closed ↔ current < s.previous)) ∧
    (0 ∈ tabCounts → ∃ s', wait_for_manual_processing initialTabs tabCounts =
      some (s', ((tabCounts.takeWhile (fun c => c != 0)) ++ [0]).map Event.pollTabs)) ∧
    ((∀ c ∈ tabCounts, c ≠ 0) → wait_for_manual_processing initialTabs tabCounts = none) := by
  refine ⟨?_, ?_, ?_⟩
  · intro s current
    rw [waitPollStep]
    split
    · rename_i hc
      simp only
      omega
    · rename_i hc
      omega
  · intro h
    exact wait_loop_mem_zero tabCounts _ h
  · intro h
    exact wait_loop_no_zero tabCounts _ h

/-- Witness for C6 at a concrete observation list reaching zero. -/
theorem wait_reports_and_terminates_witness :
    ∃ s', wait_for_manual_processing 2 [2, 1, 0] =
      some (s', (([2, 1, 0].takeWhile (fun c => c != 0)) ++ [0]).map Event.pollTabs) :=
  (wait_reports_and_terminates 2 [2, 1, 0]).2.1 (by decide)

/-- C7: `process_model_url` performs exactly: open a new tab (script,
switch, navigate to the import page), a 1-second settle delay, a
visibility wait on the text input with the default 10-second timeout,
clear, type the given URL, and a final 1-second settle delay. -/
theorem process_model_url_sequence (urlImport modelUrl : String) :
    process_model_url urlImport modelUrl =
      [BrowserOp.executeScript "window.open(\x27\x27);",
       BrowserOp.switchToLastTab,
       BrowserOp.navigate urlImport,
       BrowserOp.sleepSeconds 1,
       BrowserOp.waitVisible "input[type=\x27text\x27]" 10,
       BrowserOp.clearField,
       BrowserOp.typeText modelUrl,
       BrowserOp.sleepSeconds 1] := rfl

/-- C8: after the operator prompt, `is_logged_in` returns true exactly
when the page holds an iframe whose src contains the known auth-iframe
substring, and false when no such element is found. -/
theorem is_logged_in_iff_marker (page : List Element) :
    is_logged_in page = true ↔
      ∃ e ∈ page, e.tag = "iframe" ∧ strContainsSubstr e.src authIframeSrcSubstr = true := by
  rw [is_logged_in_eq_isSome, List.find?_isSome]
  constructor
  · rintro ⟨e, he, hm⟩
    simp only [matchesAuthIframe, Bool.and_eq_true, beq_iff_eq] at hm
    exact ⟨e, he, hm.1, hm.2⟩
  · rintro ⟨e, he, ht, hs⟩
    refine ⟨e, he, ?_⟩
    simp only [matchesAuthIframe, Bool.and_eq_true, beq_iff_eq]
    exact ⟨ht, hs⟩

/-- Witness for C8 on a one-element page carrying the marker. -/
theorem is_logged_in_iff_marker_witness :
    is_logged_in [{ tag := "iframe", src := "https://www.mage.space/__/auth/iframe?x" }] = true :=
  (is_logged_in_iff_marker _).mpr
    ⟨{ tag := "iframe", src := "https://www.mage.space/__/auth/iframe?x" },
      List.mem_singleton.mpr rfl, rfl, by decide⟩

/-- C9: passing the empty string for models_path or url_import is the
same as omitting them: the models path falls back to magespace.txt in
the working directory and the import URL to the mage.space default. -/
theorem init_empty_string_args_default (cwd : String) :
    resolveModelsPath cwd (some "") = resolveModelsPath cwd none ∧
    resolveModelsPath cwd none = cwd ++ "/" ++ "magespace.txt" ∧
    resolveUrlImport (some "") = resolveUrlImport none ∧
    resolveUrlImport none = "https://www.mage.space/models/import" := by
  refine ⟨rfl, ?_, rfl, rfl⟩
  show pathResolve cwd "magespace.txt" = cwd ++ "/" ++ "magespace.txt"
  rw [pathResolve]
  have habs : pathIsAbsolute "magespace.txt" = false := by decide
  rw [habs]
  simp

/-- C10: splitting follows splitlines semantics — the final terminator
opens no phantom entry: urlA, urlB with a trailing newline load as two
entries; appending a final newline after a non-terminator character
changes nothing, while after a newline it appends exactly one blank
entry (a blank line followed by a further terminator). -/
theorem read_model_urls_final_terminator :
    read_model_urls "urlA\nurlB\n" = ["urlA", "urlB"] ∧
    (∀ s : String, ∀ c0, s.data.getLast? = some c0 → isPyLineBreak c0 = false →
      read_model_urls (s ++ "\n") = read_model_urls s) ∧
    (∀ s : String, s.data.getLast? = some '\n' →
      read_model_urls (s ++ "\n") = read_model_urls s ++ [""]) ∧
    read_model_urls "\n" = [""] ∧ read_model_urls "" = [] := by
  refine ⟨by decide, ?_, ?_, by decide, rfl⟩
  · intro s c0 hlast hc0
    show pySplitlines (s ++ "\n") = pySplitlines s
    rw [pySplitlines, pySplitlines, String.data_append,
      show ("\n" : String).data = ['\n'] from rfl,
      splitlinesAux_snoc_nl_of_last_notbreak s.data.length s.data (le_refl _) [] c0 hlast hc0]
  · intro s hlast
    show pySplitlines (s ++ "\n") = pySplitlines s ++ [""]
    rw [pySplitlines, pySplitlines, String.data_append,
      show ("\n" : String).data = ['\n'] from rfl,
      splitlinesAux_snoc_nl_of_last_nl s.data.length s.data (le_refl _) [] hlast]
    simp [List.map_append, show ([] : List Char).asString = "" from rfl]

/-- Witness for C10: appending a final newline to an unterminated line
adds no entry. -/
theorem read_model_urls_final_terminator_witness :
    read_model_urls ("urlA" ++ "\n") = read_model_urls "urlA" :=
  read_model_urls_final_terminator.2.1 "urlA" 'A' (by decide) (by decide)

end MagespaceImporter
